import Mathlib

/-!
# powroxy: the proof-of-work admission handler of `main.go`

A shallow embedding of the HTTP handler registered in `main` (lines 33-139 of
`main.go`) together with the properties of its admission decision.

Conventions of the embedding.

* A Go `byte` is a `Fin 256`; a Go `string` is the list of its bytes
  (`len(s)` is the list length, `s[i]` the `i`-th byte).
* A fixed-size Go array `[n]byte` is a list of bytes whose length is `n`.
* Indexing that Go checks at run time (`a[i]`) is embedded with `a[i]?`; the
  value `none` of a loop or of the handler stands for the run-time panic
  "index out of range".
* The map `clients` is a function from keys to optional values; a missing
  key reads as `none` (Go: the zero value, a nil slice, and `exists = false`).
* Library code that is not part of the repository is a parameter: SHA-256
  (`crypto/sha256`), UUID parsing and printing (`github.com/google/uuid`).
  The values drawn from `uuid.New()` and `rand.Intn(256)` during one request are
  inputs of the handler.
-/

namespace Powroxy

/-! ## Data model -/

/-- A Go `byte`. -/
abbrev Byte := Fin 256

/-- A Go `string`: its sequence of bytes. -/
abbrev GoString := List Byte

/-- The bytes of an ASCII literal. -/
def str (s : String) : GoString := s.toList.map (fun ch => Fin.ofNat ch.toNat)

/-- `const powLength = 1` (line 15). -/
def powLength : Nat := 1

/-- `const prefixLength = 8` (line 16). -/
def prefixLength : Nat := 8

/-- The array type `[powLength + prefixLength]byte` of one challenge. -/
abbrev Challenge := { a : List Byte // a.length = powLength + prefixLength }

/-- The array type `[32]byte` returned by `sha256.Sum256`. -/
abbrev Digest := { a : List Byte // a.length = 32 }

/-- The array type `uuid.UUID`, that is `[16]byte`. -/
abbrev UUID := { a : List Byte // a.length = 16 }

/-- The zero value of `uuid.UUID` (the value of `var parsedPowUid uuid.UUID`). -/
def UUID.zero : UUID := ⟨List.replicate 16 0, rfl⟩

/-- The global `clients` map (line 18). -/
abbrev Clients := UUID → Option (List Challenge)

/-- The map literal of line 18: no key. -/
def Clients.empty : Clients := fun _ => none

/-- Assignment `clients[k] = v`. -/
def Clients.set (m : Clients) (k : UUID) (v : List Challenge) : Clients :=
  fun j => if j = k then some v else m j

/-- The value read by `clients[k]` in an expression: the nil slice for a missing key. -/
def Clients.read (m : Clients) (k : UUID) : List Challenge := (m k).getD []

/-- The library functions the handler calls. -/
structure Lib where
  /-- The function `sha256.Sum256`. -/
  Sum256 : GoString → Digest
  /-- The function `uuid.Parse`: the returned id and whether the returned error is nil. -/
  Parse : GoString → UUID × Bool
  /-- The method `UUID.String`. -/
  String : UUID → GoString

/-- The part of `http.Request` the handler reads or writes, and the rest of it. -/
structure Request where
  Method : GoString
  URL : GoString
  Header : List (GoString × GoString)
  Body : GoString
  Host : GoString
  /-- The cookies of the request, as name and value, in the order sent. -/
  Cookies : List (GoString × GoString)
deriving DecidableEq

/-- The method `r.Cookie(name)`: the value of the first cookie of that name,
`none` when the call returns `ErrNoCookie`. -/
def Request.Cookie (r : Request) (name : GoString) : Option GoString :=
  (r.Cookies.find? (fun c => c.1 = name)).map (fun c => c.2)

/-! ## Hex formatting -/

/-- The digit table of package `fmt`. -/
def ldigits : GoString := str "0123456789abcdef"

/-- The verb `%x` applied to a byte slice: two lower-case hex digits per byte. -/
def fmtSbx (b : List Byte) : GoString :=
  b.flatMap (fun c => [ldigits.getD (c.val / 16) 0, ldigits.getD (c.val % 16) 0])

/-! ## A reference instance of the libraries

Used to evaluate the handler on concrete requests. SHA-256 follows FIPS 180-4
(32-bit words are natural numbers reduced modulo `2 ^ 32`). UUIDs are read and
printed in the canonical form `xxxxxxxx-xxxx-xxxx-xxxx-xxxxxxxxxxxx`. -/

namespace SHA256

/-- The round constants `K`, in decimal: `1116352408` is `0x428a2f98`. -/
def K : List Nat := [
  1116352408, 1899447441, 3049323471, 3921009573, 961987163, 1508970993,
  2453635748, 2870763221, 3624381080, 310598401, 607225278, 1426881987,
  1925078388, 2162078206, 2614888103, 3248222580, 3835390401, 4022224774,
  264347078, 604807628, 770255983, 1249150122, 1555081692, 1996064986,
  2554220882, 2821834349, 2952996808, 3210313671, 3336571891, 3584528711,
  113926993, 338241895, 666307205, 773529912, 1294757372, 1396182291,
  1695183700, 1986661051, 2177026350, 2456956037, 2730485921, 2820302411,
  3259730800, 3345764771, 3516065817, 3600352804, 4094571909, 275423344,
  430227734, 506948616, 659060556, 883997877, 958139571, 1322822218,
  1537002063, 1747873779, 1955562222, 2024104815, 2227730452, 2361852424,
  2428436474, 2756734187, 3204031479, 3329325298]

/-- The operation `ROTR n` on a 32-bit word. -/
def ROTR (n w : Nat) : Nat := (w / 2 ^ n + w * 2 ^ (32 - n)) % 2 ^ 32

/-- Addition modulo `2 ^ 32`. -/
def add32 (x y : Nat) : Nat := (x + y) % 2 ^ 32

/-- The function `Ch`; the complement of the word `e` is `2 ^ 32 - 1 - e`. -/
def Ch (e f g : Nat) : Nat := Nat.xor (Nat.land e f) (Nat.land (2 ^ 32 - 1 - e) g)

/-- The function `Maj`. -/
def Maj (a b c : Nat) : Nat := Nat.xor (Nat.xor (Nat.land a b) (Nat.land a c)) (Nat.land b c)

/-- The function written with a capital sigma and index 0. -/
def bigSigma0 (a : Nat) : Nat := Nat.xor (Nat.xor (ROTR 2 a) (ROTR 13 a)) (ROTR 22 a)

/-- The function written with a capital sigma and index 1. -/
def bigSigma1 (e : Nat) : Nat := Nat.xor (Nat.xor (ROTR 6 e) (ROTR 11 e)) (ROTR 25 e)

/-- The function written with a small sigma and index 0. -/
def smallSigma0 (w : Nat) : Nat := Nat.xor (Nat.xor (ROTR 7 w) (ROTR 18 w)) (w / 2 ^ 3)

/-- The function written with a small sigma and index 1. -/
def smallSigma1 (w : Nat) : Nat := Nat.xor (Nat.xor (ROTR 17 w) (ROTR 19 w)) (w / 2 ^ 10)

/-- The `n` low bytes of `x`, most significant first. -/
def beBytes : Nat → Nat → List Byte
  | 0, _ => []
  | n + 1, x => Fin.ofNat (x / 256 ^ n) :: beBytes n x

/-- The padded message: the bit `1`, zeros, and the bit length on 64 bits. -/
def pad (msg : List Byte) : List Byte :=
  msg ++ [0x80] ++ List.replicate ((119 - msg.length % 64) % 64) 0 ++ beBytes 8 (8 * msg.length)

/-- The big-endian word of four bytes. -/
def beWord : List Byte → Nat
  | [a, b, c, d] => ((a.val * 256 + b.val) * 256 + c.val) * 256 + d.val
  | _ => 0

/-- The first `n` words of a block. -/
def words : Nat → List Byte → List Nat
  | 0, _ => []
  | n + 1, bs => beWord (bs.take 4) :: words n (bs.drop 4)

/-- The message schedule extended by `n` words, most recent word first. -/
def schedule : Nat → List Nat → List Nat
  | 0, ws => ws
  | n + 1, ws =>
    schedule n (add32 (add32 (smallSigma1 (ws.getD 1 0)) (ws.getD 6 0))
      (add32 (smallSigma0 (ws.getD 14 0)) (ws.getD 15 0)) :: ws)

/-- The eight working variables. -/
structure Vars where
  a : Nat
  b : Nat
  c : Nat
  d : Nat
  e : Nat
  f : Nat
  g : Nat
  h : Nat

/-- One round of the compression function. -/
def round (s : Vars) (k w : Nat) : Vars :=
  let t1 := add32 (add32 (add32 s.h (bigSigma1 s.e)) (add32 (Ch s.e s.f s.g) k)) w
  let t2 := add32 (bigSigma0 s.a) (Maj s.a s.b s.c)
  { a := add32 t1 t2, b := s.a, c := s.b, d := s.c, e := add32 s.d t1, f := s.e, g := s.f,
    h := s.g }

/-- The rounds of one block, over the constants and the schedule. -/
def rounds : Vars → List Nat → List Nat → Vars
  | s, k :: ks, w :: ws => rounds (round s k w) ks ws
  | s, _, _ => s

/-- The compression of one 64-byte block into the hash value `h`. -/
def block (h : Vars) (bs : List Byte) : Vars :=
  let s := rounds h K (schedule 48 (words 16 bs).reverse).reverse
  { a := add32 h.a s.a, b := add32 h.b s.b, c := add32 h.c s.c, d := add32 h.d s.d,
    e := add32 h.e s.e, f := add32 h.f s.f, g := add32 h.g s.g, h := add32 h.h s.h }

/-- The compression of the first `n` blocks of `bs`. -/
def blocks : Nat → Vars → List Byte → Vars
  | 0, h, _ => h
  | n + 1, h, bs => blocks n (block h (bs.take 64)) (bs.drop 64)

/-- The initial hash value, in decimal: `1779033703` is `0x6a09e667`. -/
def init : Vars :=
  ⟨1779033703, 3144134277, 1013904242, 2773480762,
    1359893119, 2600822924, 528734635, 1541459225⟩

/-- The digest of a message. -/
def Sum256 (msg : List Byte) : Digest :=
  let s := blocks ((pad msg).length / 64) init (pad msg)
  ⟨beBytes 4 s.a ++ beBytes 4 s.b ++ beBytes 4 s.c ++ beBytes 4 s.d ++ beBytes 4 s.e ++
    beBytes 4 s.f ++ beBytes 4 s.g ++ beBytes 4 s.h, by simp [beBytes]⟩

end SHA256

/-- The value of a hex digit, upper or lower case. -/
def xvalue (c : Byte) : Option Nat :=
  if 48 ≤ c.val ∧ c.val ≤ 57 then some (c.val - 48)
  else if 97 ≤ c.val ∧ c.val ≤ 102 then some (c.val - 87)
  else if 65 ≤ c.val ∧ c.val ≤ 70 then some (c.val - 55)
  else none

/-- The byte written by two hex digits. -/
def xtob (x1 x2 : Byte) : Option Byte :=
  match xvalue x1, xvalue x2 with
  | some a, some b => some (Fin.ofNat (a * 16 + b))
  | _, _ => none

/-- The positions of the sixteen digit pairs in the canonical form. -/
def uuidOffsets : List Nat := [0, 2, 4, 6, 9, 11, 14, 16, 19, 21, 24, 26, 28, 30, 32, 34]

/-- The sixteen bytes written at the digit positions of `s`, if all are hex. -/
def uuidBytes (s : GoString) : List Nat → Option (List Byte)
  | [] => some []
  | x :: xs =>
    match xtob (s.getD x 0) (s.getD (x + 1) 0), uuidBytes s xs with
    | some b, some bs => some (b :: bs)
    | _, _ => none

/-- Reading a UUID in the canonical 36-character form. The library also accepts a
`urn:uuid:` prefix, braces, and 32 bare digits: this instance reports an error for
those, and returns the zero id with every error. -/
def canonParse (s : GoString) : UUID × Bool :=
  if s.length = 36 ∧ s.getD 8 0 = 45 ∧ s.getD 13 0 = 45 ∧ s.getD 18 0 = 45 ∧ s.getD 23 0 = 45 then
    match uuidBytes s uuidOffsets with
    | some bs => if h : bs.length = 16 then (⟨bs, h⟩, true) else (UUID.zero, false)
    | none => (UUID.zero, false)
  else (UUID.zero, false)

/-- Printing a UUID in the canonical form, with lower-case hex digits. -/
def canonString (u : UUID) : GoString :=
  fmtSbx (u.val.take 4) ++ [45] ++ fmtSbx ((u.val.drop 4).take 2) ++ [45] ++
    fmtSbx ((u.val.drop 6).take 2) ++ [45] ++ fmtSbx ((u.val.drop 8).take 2) ++ [45] ++
    fmtSbx (u.val.drop 10)

/-- The reference instance. -/
def goLib : Lib := { Sum256 := SHA256.Sum256, Parse := canonParse, String := canonString }

/-! ## The match check (lines 63-84) -/

/-- The loop of lines 68-74 from index `i` with `n` iterations left: the value
of `matches` after the loop. -/
def hashLoop (powHash challenge : List Byte) : Nat → Nat → Option Bool
  | 0, _ => some true
  | n + 1, i =>
    match powHash[i]?, challenge[i]? with
    | some h, some c => if h != c then some false else hashLoop powHash challenge n (i + 1)
    | _, _ => none

/-- The loop of lines 77-83 from index `i` with `n` iterations left: the value
of `matches` after the loop. -/
def prefixLoop (parsedPowSolve prefixHex : GoString) : Nat → Nat → Option Bool
  | 0, _ => some true
  | n + 1, i =>
    match parsedPowSolve[i]?, prefixHex[i]? with
    | some a, some b =>
      if a != b then some false else prefixLoop parsedPowSolve prefixHex n (i + 1)
    | _, _ => none

/-- The body of the range loop up to line 84 for one `challenge`: the value of
`matches` tested at line 85. -/
def matchChallenge (parsedPowSolve : GoString) (powHash : Digest) (challenge : Challenge) :
    Option Bool :=
  match hashLoop powHash.val challenge.val powLength 0 with
  | none => none
  | some false => some false
  | some true =>
    let prefixHex := fmtSbx (challenge.val.drop powLength)
    prefixLoop parsedPowSolve prefixHex prefixLength 0

/-- The match check of one candidate against one challenge: the length guard
of line 63, then the hash loop and the prefix loop. -/
def matchCheck (L : Lib) (parsedPowSolve : GoString) (challenge : Challenge) : Option Bool :=
  if prefixLength ≤ parsedPowSolve.length then
    matchChallenge parsedPowSolve (L.Sum256 parsedPowSolve) challenge
  else some false

/-- The field `hashConstraint` of a challenge: its first `powLength` bytes. -/
def hashConstraint (c : Challenge) : List Byte := c.val.take powLength

/-- The field `requiredPrefix` of a challenge: the bytes after the first `powLength`. -/
def requiredPrefix (c : Challenge) : List Byte := c.val.drop powLength

/-! ## The handler (lines 33-139) -/

/-- The two terminal outcomes of one request: the request is handed to the
reverse proxy (line 96), or the challenge page is written (lines 111-137). -/
inductive Outcome where
  | FORWARD
  | CHALLENGE
deriving DecidableEq, Repr

/-- The local variables of lines 35-45 after line 45. -/
structure Session where
  /-- Whether `err == nil` after `r.Cookie("_powroxyuid")`. -/
  errNil : Bool
  /-- Whether `parseErr == nil`. -/
  parseErrNil : Bool
  parsedPowUid : UUID
  userChallenges : List Challenge
  /-- The variable `exists`. -/
  found : Bool

/-- Lines 35-45: read the cookie `_powroxyuid`, parse it, look the id up. -/
def lookupSession (L : Lib) (clients : Clients) (r : Request) : Session :=
  match r.Cookie (str "_powroxyuid") with
  | none =>
    { errNil := false, parseErrNil := true, parsedPowUid := UUID.zero,
      userChallenges := [], found := false }
  | some value =>
    let parsed := L.Parse value
    if parsed.2 then
      match clients parsed.1 with
      | some l =>
        { errNil := true, parseErrNil := true, parsedPowUid := parsed.1,
          userChallenges := l, found := true }
      | none =>
        { errNil := true, parseErrNil := true, parsedPowUid := parsed.1,
          userChallenges := [], found := false }
    else
      { errNil := true, parseErrNil := false, parsedPowUid := parsed.1,
        userChallenges := [], found := false }

/-- The condition of line 46, `err != nil || !exists`. -/
def Session.isNew (s : Session) : Bool := !s.errNil || !s.found

/-- The range loop of lines 66-99 up to its first match: `some (some c)` when
the body reaches line 85 with `matches` true for `c`, `some none` when the
loop ends without a match. -/
def scan (parsedPowSolve : GoString) (powHash : Digest) :
    List Challenge → Option (Option Challenge)
  | [] => some none
  | challenge :: rest =>
    match matchChallenge parsedPowSolve powHash challenge with
    | none => none
    | some true => some (some challenge)
    | some false => scan parsedPowSolve powHash rest

/-- The loop of lines 88-92 over the rest of `userChallenges`, `acc` being
`newChallenges` so far. -/
def removeLoop (challenge : Challenge) : List Challenge → List Challenge → List Challenge
  | [], acc => acc
  | c :: cs, acc => removeLoop challenge cs (if c != challenge then acc ++ [c] else acc)

/-- The zero value `[powLength + prefixLength]byte{}` of line 103. -/
def Challenge.zero : Challenge := ⟨List.replicate (powLength + prefixLength) 0, by simp⟩

/-- The assignment `challengePow[i] = b`. -/
def Challenge.setAt (c : Challenge) (i : Nat) (b : Byte) : Challenge :=
  ⟨c.val.set i b, by simp [c.property]⟩

/-- The loop of lines 104-106 from index `i` with `n` iterations left; `Intn i`
is the value `rand.Intn(256)` returns in iteration `i`. -/
def genLoop (Intn : Nat → Nat) : Nat → Nat → Challenge → Challenge
  | 0, _, c => c
  | n + 1, i, c => genLoop Intn n (i + 1) (c.setAt i (Fin.ofNat (Intn i)))

/-- Lines 103-106: the generated `challengePow`. -/
def generate (Intn : Nat → Nat) : Challenge :=
  genLoop Intn (powLength + prefixLength) 0 Challenge.zero

/-- The format string of lines 112-137 before its first verb. -/
def pageHead : GoString := str ("<script>\nasync function sha256(message) \x7b\n" ++
  "  const encoder = new TextEncoder();\n" ++
  "  const data = encoder.encode(message);\n" ++
  "  const hashBuffer = await crypto.subtle.digest(\x22SHA-256\x22, data);\n" ++
  "  const hashArray = Array.from(new Uint8Array(hashBuffer));\n" ++
  "  return hashArray.map(byte => byte.toString(16).padStart(2, \x270\x27)).join(\x27\x27);\n" ++
  "\x7d\n\nconst challenge = \x22")

/-- The format string of lines 112-137 between its two verbs. -/
def pageMid : GoString := str "\x22;\nconst prefix = \x22"

/-- The format string of lines 112-137 after its second verb. -/
def pageTail : GoString := str ("\x22;\n\n(async function proofOfWork() \x7b\n" ++
  "  while (true) \x7b\n" ++
  "    const attempt = prefix + Math.random().toString(16).substring(2);\n" ++
  "    const hash = await sha256(attempt);\n\n" ++
  "    if (hash.startsWith(challenge)) \x7b\n" ++
  "      document.cookie = \x27_powroxy=\x27+attempt + \x27; path=/\x27;\n" ++
  "      location.reload();\n" ++
  "      break;\n" ++
  "    \x7d\n  \x7d\n\x7d)();\n</script>\n")

/-- The bytes written by `fmt.Fprintf` at lines 112-137. -/
def page (challengePow : Challenge) : GoString :=
  pageHead ++ fmtSbx (challengePow.val.take powLength) ++ pageMid ++
    fmtSbx (challengePow.val.drop powLength) ++ pageTail

/-- What one run of the handler leaves behind. -/
structure Result where
  outcome : Outcome
  /-- The map `clients` when the handler returns. -/
  clients : Clients
  /-- The value of the cookie `_powroxyuid` passed to `http.SetCookie`, if any. -/
  setCookie : Option GoString
  /-- The request passed to `proxy.ServeHTTP`, if any. -/
  proxied : Option Request
  /-- The header `Content-Type` set by the handler itself, if any. -/
  contentType : Option GoString
  /-- The bytes the handler itself writes to the response. -/
  body : GoString
  /-- The challenge generated at lines 103-106, if any. -/
  challengePow : Option Challenge

/-- Lines 46-55: the map after the session has been created, if it is. -/
def createSession (clients : Clients) (s : Session) (uid : UUID) : Clients :=
  if s.isNew then clients.set uid [] else clients

/-- Lines 46-55: the cookie value passed to `http.SetCookie`, if any. -/
def sessionCookie (L : Lib) (s : Session) (uid : UUID) : Option GoString :=
  if s.isNew then some (L.String uid) else none

/-- Lines 102-137: generate a challenge, append it, write the page. -/
def issue (L : Lib) (clients : Clients) (s : Session) (uid : UUID) (Intn : Nat → Nat) :
    Result :=
  let challengePow := generate Intn
  let clients1 := createSession clients s uid
  { outcome := Outcome.CHALLENGE
    clients := clients1.set s.parsedPowUid (clients1.read s.parsedPowUid ++ [challengePow])
    setCookie := sessionCookie L s uid
    proxied := none
    contentType := some (str "text/html")
    body := page challengePow
    challengePow := some challengePow }

/-- Lines 85-97: remove the matched challenge and hand the request to the proxy. -/
def forward (L : Lib) (targetHost : GoString) (clients : Clients) (r : Request)
    (s : Session) (uid : UUID) (challenge : Challenge) : Result :=
  { outcome := Outcome.FORWARD
    clients := (createSession clients s uid).set s.parsedPowUid
      (removeLoop challenge s.userChallenges [])
    setCookie := sessionCookie L s uid
    proxied := some { r with Host := targetHost }
    contentType := none
    body := []
    challengePow := none }

/-- The handler of lines 33-139. `targetHost` is `targetURL.Host`, `clients`
the map at entry, `uid` the value `uuid.New()` returns if called, `Intn i` the
value the `i`-th call of `rand.Intn(256)` returns. The result is `none` when the
handler panics on an index out of range. -/
def handler (L : Lib) (targetHost : GoString) (clients : Clients) (r : Request)
    (uid : UUID) (Intn : Nat → Nat) : Option Result :=
  let s := lookupSession L clients r
  let parsedPowSolve := (r.Cookie (str "_powroxy")).getD []
  if prefixLength ≤ parsedPowSolve.length then
    match scan parsedPowSolve (L.Sum256 parsedPowSolve) s.userChallenges with
    | none => none
    | some (some challenge) => some (forward L targetHost clients r s uid challenge)
    | some none => some (issue L clients s uid Intn)
  else some (issue L clients s uid Intn)

/-- The two comparisons the loops of lines 68-83 perform, in closed form: the
first `powLength` bytes of the digest against those of the challenge, and the
first `prefixLength` bytes of the candidate against those of the hex string. -/
def agrees (parsedPowSolve : GoString) (powHash : Digest) (challenge : Challenge) : Bool :=
  decide (powHash.val.take powLength = challenge.val.take powLength) &&
    decide (parsedPowSolve.take prefixLength =
      (fmtSbx (challenge.val.drop powLength)).take prefixLength)

/-! ## Sequences of requests -/

/-- One request together with what the libraries return while it is handled. -/
structure Arrival where
  r : Request
  /-- The value `uuid.New()` returns if it is called. -/
  uid : UUID
  /-- The values `rand.Intn(256)` returns, by number of the call. -/
  Intn : Nat → Nat

/-- The map after the handler has served the requests one after the other. -/
def serve (L : Lib) (targetHost : GoString) : Clients → List Arrival → Option Clients
  | clients, [] => some clients
  | clients, a :: rest =>
    match handler L targetHost clients a.r a.uid a.Intn with
    | none => none
    | some res => serve L targetHost res.clients rest

/-! ## Concrete requests -/

/-- A version-4 id, as `uuid.New()` returns them. -/
def uidA : UUID :=
  ⟨[0x01, 0x23, 0x45, 0x67, 0x89, 0xab, 0x4d, 0xef, 0x81, 0x23, 0x45, 0x67, 0x89, 0xab, 0xcd,
    0xef], rfl⟩

/-- Another version-4 id. -/
def uidB : UUID :=
  ⟨[0xfe, 0xdc, 0xba, 0x98, 0x76, 0x54, 0x42, 0x10, 0xb1, 0x23, 0x45, 0x67, 0x89, 0xab, 0xcd,
    0xef], rfl⟩

/-- The printed form of `uidA`. -/
def cookieA : GoString := str "01234567-89ab-4def-8123-456789abcdef"

/-- The host of the default target, `http://127.0.0.1:80`. -/
def target : GoString := str "127.0.0.1:80"

/-- A `GET /` request with the given cookies. -/
def get (cookies : List (GoString × GoString)) : Request :=
  { Method := str "GET", URL := str "/", Header := [], Body := [],
    Host := str "gate.example:8080", Cookies := cookies }

/-- The generator that returns the numbers of `l` one after the other. -/
def draws (l : List Nat) : Nat → Nat := fun i => l.getD i 0

/-- A candidate whose SHA-256 digest starts with the byte `0x36`. -/
def candF : GoString := str "00000000ffffffff"

/-- The challenge with hash constraint `0x36` and required prefix eight zero bytes. -/
def chalZero : Challenge := ⟨[0x36, 0, 0, 0, 0, 0, 0, 0, 0], rfl⟩

/-- The challenge with hash constraint `0x36` and required prefix `00 00 00 00 ff ff ff ff`. -/
def chalF : Challenge := ⟨[0x36, 0, 0, 0, 0, 0xff, 0xff, 0xff, 0xff], rfl⟩

/-- A first contact: no cookie, and `uuid.New()` returns `uidA`. -/
def firstContact : Arrival := { r := get [], uid := uidA, Intn := draws [] }

/-- A later request of the same client: the session cookie only. -/
def comeBack : Arrival :=
  { r := get [(str "_powroxyuid", cookieA)], uid := uidB, Intn := draws [] }

/-- A later request of the same client for which the generator draws `chalF`. -/
def askF : Arrival :=
  { r := get [(str "_powroxyuid", cookieA)], uid := uidB,
    Intn := draws [0x36, 0, 0, 0, 0, 0xff, 0xff, 0xff, 0xff] }

/-- A later request of the same client for which the generator draws `chalZero`. -/
def askZero : Arrival :=
  { r := get [(str "_powroxyuid", cookieA)], uid := uidB,
    Intn := draws [0x36, 0, 0, 0, 0, 0, 0, 0, 0] }

/-- The request of the same client that offers the candidate `candF`. -/
def solveF : Request := get [(str "_powroxyuid", cookieA), (str "_powroxy", candF)]

/-- A challenge that `candF` does not solve: its hash constraint is `0x37`. -/
def chalOther : Challenge := ⟨[0x37, 1, 2, 3, 4, 5, 6, 7, 8], rfl⟩

/-- A request and the time, in seconds, at which it arrives. The handler reads
no clock: the time is no input of `handler`. -/
structure Timed where
  time : Nat
  arrival : Arrival

/-- The map after the timed requests have been served in the order given. -/
def serveTimed (L : Lib) (targetHost : GoString) (clients : Clients) (history : List Timed) :
    Option Clients :=
  serve L targetHost clients (history.map Timed.arrival)

/-! ## The reference instance on known values -/

set_option maxRecDepth 1000000 in
/-- The digest of `abc`, the first example of FIPS 180-4. -/
theorem SHA256.Sum256_abc :
    fmtSbx (SHA256.Sum256 (str "abc")).val =
      str "ba7816bf8f01cfea414140de5dae2223b00361a396177a9cb410ff61f20015ad" := by
  decide!

set_option maxRecDepth 1000000 in
/-- The digest of the two-block example of FIPS 180-4. -/
theorem SHA256.Sum256_two_blocks :
    fmtSbx (SHA256.Sum256
      (str "abcdbcdecdefdefgefghfghighijhijkijkljklmklmnlmnomnopnopq")).val =
      str "248d6a61d20638b8e5c026930c3e6039a33ce45964ff2167f6ecedd419db06c1" := by
  decide!

set_option maxRecDepth 1000000 in
/-- The digest of the candidate `candF`. -/
theorem SHA256.Sum256_candF :
    fmtSbx (SHA256.Sum256 candF).val =
      str "3688ede97abdfa261324bcfdc11a17846681ce6517126dcc19dbc7e0542ad31f" := by
  decide!

set_option maxRecDepth 1000000 in
/-- Printing and reading `uidA`. -/
theorem canonString_uidA : goLib.String uidA = cookieA ∧ goLib.Parse cookieA = (uidA, true) := by
  decide!

/-! ## The loops in closed form -/

theorem hashLoop_eq_prefixLoop (a b : List Byte) (n i : Nat) :
    hashLoop a b n i = prefixLoop a b n i := by
  induction n generalizing i with
  | zero => rfl
  | succ n ih => simp only [hashLoop, prefixLoop, ih]

theorem prefixLoop_eq (a b : List Byte) (n i : Nat) (ha : i + n ≤ a.length)
    (hb : i + n ≤ b.length) :
    prefixLoop a b n i = some (decide ((a.drop i).take n = (b.drop i).take n)) := by
  induction n generalizing i with
  | zero => simp [prefixLoop]
  | succ n ih =>
    have hia : i < a.length := by omega
    have hib : i < b.length := by omega
    rw [prefixLoop, List.getElem?_eq_getElem hia, List.getElem?_eq_getElem hib]
    simp only []
    rw [List.drop_eq_getElem_cons hia, List.drop_eq_getElem_cons hib, List.take_succ_cons,
      List.take_succ_cons]
    by_cases hab : a[i] = b[i]
    · rw [ih (i + 1) (by omega) (by omega)]
      simp [hab]
    · simp [hab]

theorem fmtSbx_length (b : List Byte) : (fmtSbx b).length = 2 * b.length := by
  induction b with
  | nil => rfl
  | cons x xs ih =>
    simp only [fmtSbx, List.flatMap_cons, List.length_append, List.length_cons,
      List.length_nil] at ih ⊢
    omega

theorem matchChallenge_eq (parsedPowSolve : GoString) (powHash : Digest) (challenge : Challenge)
    (hlen : prefixLength ≤ parsedPowSolve.length) :
    matchChallenge parsedPowSolve powHash challenge =
      some (agrees parsedPowSolve powHash challenge) := by
  have h1 : hashLoop powHash.val challenge.val powLength 0 =
      some (decide (powHash.val.take powLength = challenge.val.take powLength)) := by
    rw [hashLoop_eq_prefixLoop, prefixLoop_eq _ _ _ _ (by simp [powHash.property, powLength])
      (by simp [challenge.property, powLength])]
    simp
  have h2 : prefixLoop parsedPowSolve (fmtSbx (challenge.val.drop powLength)) prefixLength 0 =
      some (decide (parsedPowSolve.take prefixLength =
        (fmtSbx (challenge.val.drop powLength)).take prefixLength)) := by
    rw [prefixLoop_eq _ _ _ _ (by simpa using hlen)
      (by simp [fmtSbx_length, challenge.property, powLength, prefixLength])]
    simp
  unfold matchChallenge agrees
  rw [h1]
  by_cases hh : powHash.val.take powLength = challenge.val.take powLength
  · simp [hh, h2]
  · simp [hh]

theorem scan_eq (parsedPowSolve : GoString) (powHash : Digest) (l : List Challenge)
    (hlen : prefixLength ≤ parsedPowSolve.length) :
    scan parsedPowSolve powHash l = some (l.find? (agrees parsedPowSolve powHash)) := by
  induction l with
  | nil => rfl
  | cons c cs ih =>
    rw [scan, matchChallenge_eq _ _ _ hlen, List.find?_cons]
    cases agrees parsedPowSolve powHash c <;> simp [ih]

theorem removeLoop_eq (challenge : Challenge) (l acc : List Challenge) :
    removeLoop challenge l acc = acc ++ l.filter (fun c => c != challenge) := by
  induction l generalizing acc with
  | nil => simp [removeLoop]
  | cons c cs ih =>
    rw [removeLoop, ih, List.filter_cons]
    by_cases h : c = challenge <;> simp [h]

theorem matchCheck_eq (L : Lib) (parsedPowSolve : GoString) (challenge : Challenge) :
    matchCheck L parsedPowSolve challenge =
      some (decide (prefixLength ≤ parsedPowSolve.length) &&
        agrees parsedPowSolve (L.Sum256 parsedPowSolve) challenge) := by
  unfold matchCheck
  by_cases hlen : prefixLength ≤ parsedPowSolve.length
  · simp [hlen, matchChallenge_eq _ _ _ hlen]
  · simp [hlen]

/-- What the match check decides: the candidate has at least `prefixLength`
bytes, its first `prefixLength` bytes are the first `prefixLength` characters of
the hex string of `requiredPrefix`, and the digest starts with `hashConstraint`. -/
theorem matchCheck_iff (L : Lib) (parsedPowSolve : GoString) (challenge : Challenge) :
    matchCheck L parsedPowSolve challenge = some true ↔
      prefixLength ≤ parsedPowSolve.length ∧
      (L.Sum256 parsedPowSolve).val.take powLength = hashConstraint challenge ∧
      parsedPowSolve.take prefixLength =
        (fmtSbx (requiredPrefix challenge)).take prefixLength := by
  simp [matchCheck_eq, agrees, hashConstraint, requiredPrefix]

/-- The handler never panics, and its result in closed form. -/
theorem handler_eq (L : Lib) (targetHost : GoString) (clients : Clients) (r : Request)
    (uid : UUID) (Intn : Nat → Nat) :
    handler L targetHost clients r uid Intn =
      some (if prefixLength ≤ ((r.Cookie (str "_powroxy")).getD []).length then
        match (lookupSession L clients r).userChallenges.find?
            (agrees ((r.Cookie (str "_powroxy")).getD [])
              (L.Sum256 ((r.Cookie (str "_powroxy")).getD []))) with
        | some challenge =>
          forward L targetHost clients r (lookupSession L clients r) uid challenge
        | none => issue L clients (lookupSession L clients r) uid Intn
      else issue L clients (lookupSession L clients r) uid Intn) := by
  unfold handler
  by_cases hlen : prefixLength ≤ ((r.Cookie (str "_powroxy")).getD []).length
  · simp only [hlen, if_true, scan_eq _ _ _ hlen]
    cases (lookupSession L clients r).userChallenges.find?
      (agrees ((r.Cookie (str "_powroxy")).getD [])
        (L.Sum256 ((r.Cookie (str "_powroxy")).getD []))) <;> rfl
  · simp only [hlen, if_false]

/-- The two ways the handler ends: line 97 after a match, or line 137. -/
theorem handler_cases (L : Lib) (targetHost : GoString) (clients : Clients) (r : Request)
    (uid : UUID) (Intn : Nat → Nat) :
    (∃ challenge, prefixLength ≤ ((r.Cookie (str "_powroxy")).getD []).length ∧
      (lookupSession L clients r).userChallenges.find?
        (agrees ((r.Cookie (str "_powroxy")).getD [])
          (L.Sum256 ((r.Cookie (str "_powroxy")).getD []))) = some challenge ∧
      handler L targetHost clients r uid Intn =
        some (forward L targetHost clients r (lookupSession L clients r) uid challenge)) ∨
    ((¬ prefixLength ≤ ((r.Cookie (str "_powroxy")).getD []).length ∨
      (lookupSession L clients r).userChallenges.find?
        (agrees ((r.Cookie (str "_powroxy")).getD [])
          (L.Sum256 ((r.Cookie (str "_powroxy")).getD []))) = none) ∧
      handler L targetHost clients r uid Intn =
        some (issue L clients (lookupSession L clients r) uid Intn)) := by
  rw [handler_eq]
  by_cases hlen : prefixLength ≤ ((r.Cookie (str "_powroxy")).getD []).length
  · cases hf : (lookupSession L clients r).userChallenges.find?
      (agrees ((r.Cookie (str "_powroxy")).getD [])
        (L.Sum256 ((r.Cookie (str "_powroxy")).getD [])))
    · right
      simp [hlen, hf]
    · left
      simp [hlen, hf]
  · right
    simp [hlen]

/-- The session variables when the cookie names a key of the map. -/
theorem lookupSession_found (L : Lib) (clients : Clients) (r : Request) (v : GoString)
    (l : List Challenge) (hc : r.Cookie (str "_powroxyuid") = some v)
    (hp : (L.Parse v).2 = true) (hk : clients (L.Parse v).1 = some l) :
    lookupSession L clients r =
      { errNil := true, parseErrNil := true, parsedPowUid := (L.Parse v).1,
        userChallenges := l, found := true } := by
  simp [lookupSession, hc, hp, hk]

/-- The session variables are those of a found session, or hold no challenge. -/
theorem lookupSession_cases (L : Lib) (clients : Clients) (r : Request) :
    (∃ v l, r.Cookie (str "_powroxyuid") = some v ∧ (L.Parse v).2 = true ∧
      clients (L.Parse v).1 = some l ∧
      lookupSession L clients r =
        { errNil := true, parseErrNil := true, parsedPowUid := (L.Parse v).1,
          userChallenges := l, found := true }) ∨
    ((r.Cookie (str "_powroxyuid") = none ∨
      ∃ v, r.Cookie (str "_powroxyuid") = some v ∧
        ((L.Parse v).2 = false ∨ clients (L.Parse v).1 = none)) ∧
      (lookupSession L clients r).userChallenges = [] ∧
      (lookupSession L clients r).isNew = true) := by
  rcases hc : r.Cookie (str "_powroxyuid") with _ | v
  · right
    simp [lookupSession, hc, Session.isNew]
  · by_cases hp : (L.Parse v).2 = true
    · rcases hk : clients (L.Parse v).1 with _ | l
      · right
        simp [lookupSession, hc, hp, hk, Session.isNew]
      · left
        exact ⟨v, l, rfl, hp, hk, lookupSession_found L clients r v l hc hp hk⟩
    · right
      simp [lookupSession, hc, hp, Session.isNew]

theorem Clients.set_same (m : Clients) (k : UUID) (v : List Challenge) :
    (m.set k v) k = some v := by
  simp [Clients.set]

theorem Clients.set_other (m : Clients) (k j : UUID) (v : List Challenge) (h : j ≠ k) :
    (m.set k v) j = m j := by
  simp [Clients.set, h]

/-- A request that ends in FORWARD: the session was found, the candidate is long
enough, `challenge` is the first stored challenge the loops accept, and the
handler leaves the map with the entries equal to `challenge` filtered out. -/
theorem handler_forward (L : Lib) (targetHost : GoString) (clients : Clients) (r : Request)
    (uid : UUID) (Intn : Nat → Nat)
    (hf : (handler L targetHost clients r uid Intn).map Result.outcome = some Outcome.FORWARD) :
    ∃ challenge v l, r.Cookie (str "_powroxyuid") = some v ∧ (L.Parse v).2 = true ∧
      clients (L.Parse v).1 = some l ∧
      lookupSession L clients r =
        { errNil := true, parseErrNil := true, parsedPowUid := (L.Parse v).1,
          userChallenges := l, found := true } ∧
      prefixLength ≤ ((r.Cookie (str "_powroxy")).getD []).length ∧
      l.find? (agrees ((r.Cookie (str "_powroxy")).getD [])
        (L.Sum256 ((r.Cookie (str "_powroxy")).getD []))) = some challenge ∧
      handler L targetHost clients r uid Intn =
        some { outcome := Outcome.FORWARD
               clients := clients.set (L.Parse v).1 (l.filter (fun c => c != challenge))
               setCookie := none
               proxied := some { r with Host := targetHost }
               contentType := none
               body := []
               challengePow := none } := by
  rcases handler_cases L targetHost clients r uid Intn with ⟨c, hlen, hfind, hh⟩ | ⟨_, hh⟩
  · rcases lookupSession_cases L clients r with ⟨v, l, hc, hp, hk, hs⟩ | ⟨_, hnil, _⟩
    · refine ⟨c, v, l, hc, hp, hk, hs, hlen, ?_, ?_⟩
      · rw [hs] at hfind
        exact hfind
      · rw [hh, hs]
        simp [forward, createSession, sessionCookie, Session.isNew, removeLoop_eq]
    · rw [hnil] at hfind
      simp at hfind
  · rw [hh] at hf
    simp [issue] at hf

/-- A request that ends in CHALLENGE: the handler ran lines 102-137. -/
theorem handler_challenge (L : Lib) (targetHost : GoString) (clients : Clients) (r : Request)
    (uid : UUID) (Intn : Nat → Nat)
    (hf : (handler L targetHost clients r uid Intn).map Result.outcome =
      some Outcome.CHALLENGE) :
    handler L targetHost clients r uid Intn =
      some (issue L clients (lookupSession L clients r) uid Intn) := by
  rcases handler_cases L targetHost clients r uid Intn with ⟨c, _, _, hh⟩ | ⟨_, hh⟩
  · rw [hh] at hf
    simp [forward] at hf
  · exact hh

/-- A request whose session cookie names a key of the map and that ends in
CHALLENGE: the new challenge is appended to the list under that key. -/
theorem handler_challenge_found (L : Lib) (targetHost : GoString) (clients : Clients)
    (r : Request) (uid : UUID) (Intn : Nat → Nat) (v : GoString) (l : List Challenge)
    (hc : r.Cookie (str "_powroxyuid") = some v) (hp : (L.Parse v).2 = true)
    (hk : clients (L.Parse v).1 = some l)
    (hf : (handler L targetHost clients r uid Intn).map Result.outcome =
      some Outcome.CHALLENGE) :
    handler L targetHost clients r uid Intn =
      some { outcome := Outcome.CHALLENGE
             clients := clients.set (L.Parse v).1 (l ++ [generate Intn])
             setCookie := none
             proxied := none
             contentType := some (str "text/html")
             body := page (generate Intn)
             challengePow := some (generate Intn) } := by
  rw [handler_challenge L targetHost clients r uid Intn hf,
    lookupSession_found L clients r v l hc hp hk]
  simp [issue, createSession, sessionCookie, Session.isNew, Clients.read, hk]

/-- A request without a long enough solution cookie ends in CHALLENGE. -/
theorem handler_short (L : Lib) (targetHost : GoString) (clients : Clients) (r : Request)
    (uid : UUID) (Intn : Nat → Nat)
    (hshort : ¬ prefixLength ≤ ((r.Cookie (str "_powroxy")).getD []).length) :
    (handler L targetHost clients r uid Intn).map Result.outcome = some Outcome.CHALLENGE := by
  rcases handler_cases L targetHost clients r uid Intn with ⟨_, hlen, _, _⟩ | ⟨_, hh⟩
  · exact absurd hlen hshort
  · rw [hh]
    rfl

/-- Serving `comeBack` `n` times makes the list of `uidA` longer by `n`. -/
theorem serve_comeBack (n : Nat) (clients : Clients) (l : List Challenge)
    (hk : clients uidA = some l) :
    ∃ clients1 l1, serve goLib target clients (List.replicate n comeBack) = some clients1 ∧
      clients1 uidA = some l1 ∧ l1.length = l.length + n := by
  induction n generalizing clients l with
  | zero => exact ⟨clients, l, rfl, hk, rfl⟩
  | succ n ih =>
    have hc : comeBack.r.Cookie (str "_powroxyuid") = some cookieA := by decide
    have hp : (goLib.Parse cookieA).2 = true := by rw [canonString_uidA.2]
    have hk1 : clients (goLib.Parse cookieA).1 = some l := by rw [canonString_uidA.2]; exact hk
    have hh := handler_challenge_found goLib target clients comeBack.r comeBack.uid
      comeBack.Intn cookieA l hc hp hk1
      (handler_short goLib target clients comeBack.r comeBack.uid comeBack.Intn (by decide))
    obtain ⟨clients1, l1, hs, hk2, hlen⟩ :=
      ih (clients.set (goLib.Parse cookieA).1 (l ++ [generate comeBack.Intn]))
        (l ++ [generate comeBack.Intn]) (by rw [canonString_uidA.2]; exact Clients.set_same _ _ _)
    refine ⟨clients1, l1, ?_, hk2, ?_⟩
    · rw [List.replicate_succ, serve, hh]
      exact hs
    · rw [hlen, List.length_append]
      simp only [List.length_cons, List.length_nil]
      omega

/-- On every path the handler sets the cookie as lines 46-55 decide, and writes
the map once more after them, under the key `parsedPowUid`. -/
theorem handler_shape (L : Lib) (targetHost : GoString) (clients : Clients) (r : Request)
    (uid : UUID) (Intn : Nat → Nat) :
    ∃ res stored, handler L targetHost clients r uid Intn = some res ∧
      res.setCookie = sessionCookie L (lookupSession L clients r) uid ∧
      res.clients = (createSession clients (lookupSession L clients r) uid).set
        (lookupSession L clients r).parsedPowUid stored := by
  rcases handler_cases L targetHost clients r uid Intn with ⟨c, _, _, hh⟩ | ⟨_, hh⟩
  · exact ⟨_, _, hh, rfl, rfl⟩
  · exact ⟨_, _, hh, rfl, rfl⟩

/-! ## The match check and the admission decision -/

set_option maxRecDepth 1000000 in
/-- C1 (the code differs): the candidate `00000000ffffffff`, whose SHA-256 digest
starts with `0x36`, passes the match check for the challenge with hash
constraint `0x36` and required prefix eight zero bytes, although it does not
start with the hex string `0000000000000000` of that prefix: the prefix loop
compares `prefixLength` characters, half of the hex string. -/
theorem C1_half_of_prefix_compared :
    matchCheck goLib candF chalZero = some true ∧
      (goLib.Sum256 candF).val.take powLength = hashConstraint chalZero ∧
      fmtSbx (requiredPrefix chalZero) = str "0000000000000000" ∧
      ¬ (fmtSbx (requiredPrefix chalZero) <+: candF) := by
  decide!

/-- C2: the handler returns, and it forwards exactly when the solution cookie
is present with at least `prefixLength` bytes, the session cookie parses to a key
of the map, and a challenge stored under that key passes the match check; in
every other case the outcome is CHALLENGE and nothing is handed to the proxy. -/
theorem C2_forward_iff (L : Lib) (targetHost : GoString) (clients : Clients) (r : Request)
    (uid : UUID) (Intn : Nat → Nat) :
    ∃ res, handler L targetHost clients r uid Intn = some res ∧
      (res.outcome = Outcome.FORWARD ↔
        ∃ x v l, r.Cookie (str "_powroxy") = some x ∧ prefixLength ≤ x.length ∧
          r.Cookie (str "_powroxyuid") = some v ∧ (L.Parse v).2 = true ∧
          clients (L.Parse v).1 = some l ∧ ∃ c ∈ l, matchCheck L x c = some true) ∧
      (res.outcome = Outcome.FORWARD → res.proxied ≠ none) ∧
      (res.outcome ≠ Outcome.FORWARD →
        res.outcome = Outcome.CHALLENGE ∧ res.proxied = none) := by
  have hx : ∀ x, r.Cookie (str "_powroxy") = some x → (r.Cookie (str "_powroxy")).getD [] = x := by
    intro x h
    simp [h]
  rcases handler_cases L targetHost clients r uid Intn with ⟨c, hlen, hf, hh⟩ | ⟨hno, hh⟩
  · refine ⟨_, hh, ⟨fun _ => ?_, fun _ => rfl⟩, fun _ => by simp [forward], fun h => absurd rfl h⟩
    rcases hcx : r.Cookie (str "_powroxy") with _ | x
    · simp [hcx, prefixLength] at hlen
    · rw [hx x hcx] at hlen hf
      have hmem := List.mem_of_find?_eq_some hf
      have hag := List.find?_some hf
      rcases lookupSession_cases L clients r with ⟨v, l, hc, hp, hk, hs⟩ | ⟨_, hnil, _⟩
      · rw [hs] at hmem
        exact ⟨x, v, l, rfl, hlen, hc, hp, hk, c, hmem, by simp [matchCheck_eq, hlen, hag]⟩
      · rw [hnil] at hmem
        simp at hmem
  · refine ⟨_, hh, ⟨fun h => by simp [issue] at h, ?_⟩, fun h => by simp [issue] at h,
      fun _ => ⟨rfl, rfl⟩⟩
    rintro ⟨x, v, l, hcx, hlen, hc, hp, hk, c, hc_mem, hm⟩
    rw [hx x hcx, lookupSession_found L clients r v l hc hp hk] at hno
    rcases hno with hno | hno
    · exact absurd hlen hno
    · rw [matchCheck_eq] at hm
      simp only [hlen, decide_True, Bool.true_and, Option.some.injEq] at hm
      rw [List.find?_eq_none] at hno
      exact absurd hm (hno c hc_mem)

/-! ## Sessions and issued challenges -/

set_option maxRecDepth 1000000 in
/-- C3 (the code differs): on the empty map, a request without cookies for which
`uuid.New()` returns `uidA` ends in CHALLENGE with the cookie of `uidA` set; the
map then holds the empty list under `uidA` and the new challenge under the zero
id, the value of `parsedPowUid` that line 108 uses as the key. -/
theorem C3_challenge_stored_under_zero_id :
    (handler goLib target Clients.empty (get []) uidA
      (draws [0x36, 0, 0, 0, 0, 0xff, 0xff, 0xff, 0xff])).map Result.outcome =
      some Outcome.CHALLENGE ∧
    (handler goLib target Clients.empty (get []) uidA
      (draws [0x36, 0, 0, 0, 0, 0xff, 0xff, 0xff, 0xff])).map Result.setCookie =
      some (some cookieA) ∧
    (handler goLib target Clients.empty (get []) uidA
      (draws [0x36, 0, 0, 0, 0, 0xff, 0xff, 0xff, 0xff])).map Result.challengePow =
      some (some chalF) ∧
    (handler goLib target Clients.empty (get []) uidA
      (draws [0x36, 0, 0, 0, 0, 0xff, 0xff, 0xff, 0xff])).map (fun res => res.clients uidA) =
      some (some []) ∧
    (handler goLib target Clients.empty (get []) uidA
      (draws [0x36, 0, 0, 0, 0, 0xff, 0xff, 0xff, 0xff])).map
      (fun res => res.clients UUID.zero) = some (some [chalF]) := by
  decide!

set_option maxRecDepth 1000000 in
/-- C4 (the code differs): after the first contact of C3, a second request with
the session cookie that was set and with the candidate `00000000ffffffff`, which
starts with the hex string of the required prefix of the challenge shown and
whose digest starts with its hash constraint, ends in CHALLENGE. -/
theorem C4_first_contact_solution_rejected :
    (handler goLib target Clients.empty (get []) uidA
      (draws [0x36, 0, 0, 0, 0, 0xff, 0xff, 0xff, 0xff])).map Result.outcome =
      some Outcome.CHALLENGE ∧
    (handler goLib target Clients.empty (get []) uidA
      (draws [0x36, 0, 0, 0, 0, 0xff, 0xff, 0xff, 0xff])).map Result.setCookie =
      some (some cookieA) ∧
    (handler goLib target Clients.empty (get []) uidA
      (draws [0x36, 0, 0, 0, 0, 0xff, 0xff, 0xff, 0xff])).map Result.challengePow =
      some (some chalF) ∧
    fmtSbx (requiredPrefix chalF) <+: candF ∧
    (goLib.Sum256 candF).val.take powLength = hashConstraint chalF ∧
    (handler goLib target Clients.empty (get []) uidA
      (draws [0x36, 0, 0, 0, 0, 0xff, 0xff, 0xff, 0xff])).bind
      (fun res1 =>
        (handler goLib target res1.clients
          (get [(str "_powroxyuid", cookieA), (str "_powroxy", candF)]) uidB (draws [])).map
          Result.outcome) = some Outcome.CHALLENGE := by
  decide!

set_option maxRecDepth 1000000 in
/-- C5 (the code differs): a client makes first contact and asks twice more, the
generator drawing `chalF` and then `chalZero`, so that its session `uidA` holds
both. Its request with the candidate `00000000ffffffff` ends in FORWARD, and the
same request sent again right after ends in FORWARD too: the first consumes
`chalF`, the second `chalZero`, which agrees with the candidate on the
`prefixLength` characters that are compared. -/
theorem C5_replay_forwarded_again :
    (serve goLib target Clients.empty [firstContact, askF, askZero]).map
      (fun clients => clients uidA) = some (some [chalF, chalZero]) ∧
    (serve goLib target Clients.empty [firstContact, askF, askZero]).bind
      (fun clients => (handler goLib target clients solveF uidB (draws [])).map
        Result.outcome) = some Outcome.FORWARD ∧
    (serve goLib target Clients.empty [firstContact, askF, askZero]).bind
      (fun clients => (handler goLib target clients solveF uidB (draws [])).map
        (fun res1 => res1.clients uidA)) = some (some [chalZero]) ∧
    (serve goLib target Clients.empty [firstContact, askF, askZero]).bind
      (fun clients => (handler goLib target clients solveF uidB (draws [])).bind
        (fun res1 => (handler goLib target res1.clients solveF uidB (draws [])).map
          Result.outcome)) = some Outcome.FORWARD := by
  decide!

/-- C6: when a request ends in FORWARD, the challenge the scan matched was
stored under the session's key before the request and is not a member of the
list stored under that key after it, however often it occurred. -/
theorem C6_matched_challenge_removed (L : Lib) (targetHost : GoString) (clients : Clients)
    (r : Request) (uid : UUID) (Intn : Nat → Nat)
    (hf : (handler L targetHost clients r uid Intn).map Result.outcome = some Outcome.FORWARD) :
    ∃ res challenge, handler L targetHost clients r uid Intn = some res ∧
      scan ((r.Cookie (str "_powroxy")).getD [])
        (L.Sum256 ((r.Cookie (str "_powroxy")).getD []))
        (lookupSession L clients r).userChallenges = some (some challenge) ∧
      challenge ∈ clients.read (lookupSession L clients r).parsedPowUid ∧
      challenge ∉ res.clients.read (lookupSession L clients r).parsedPowUid ∧
      (res.clients.read (lookupSession L clients r).parsedPowUid).count challenge = 0 := by
  obtain ⟨c, v, l, _, _, hk, hs, hlen, hfind, hh⟩ :=
    handler_forward L targetHost clients r uid Intn hf
  have hnot : c ∉ ((clients.set (L.Parse v).1 (l.filter (fun x => x != c))).read
      (L.Parse v).1) := by
    simp [Clients.read, Clients.set_same]
  refine ⟨_, c, hh, ?_, ?_, ?_, ?_⟩
  · rw [hs, scan_eq _ _ _ hlen, hfind]
  · rw [hs]
    simp only [Clients.read, hk, Option.getD_some]
    exact List.mem_of_find?_eq_some hfind
  · rw [hs]
    exact hnot
  · rw [hs]
    exact List.count_eq_zero.mpr hnot

set_option maxRecDepth 1000000 in
/-- C6 at a map that holds the matched challenge twice. -/
theorem C6_matched_challenge_removed_witness :
    (handler goLib target (Clients.empty.set uidA [chalF, chalZero, chalF])
        (get [(str "_powroxyuid", cookieA), (str "_powroxy", candF)]) uidB (draws [])).map
      Result.outcome = some Outcome.FORWARD ∧
    ∃ res challenge, handler goLib target (Clients.empty.set uidA [chalF, chalZero, chalF])
        (get [(str "_powroxyuid", cookieA), (str "_powroxy", candF)]) uidB (draws []) =
        some res ∧
      scan (((get [(str "_powroxyuid", cookieA), (str "_powroxy", candF)]).Cookie
          (str "_powroxy")).getD [])
        (goLib.Sum256 (((get [(str "_powroxyuid", cookieA), (str "_powroxy", candF)]).Cookie
          (str "_powroxy")).getD []))
        (lookupSession goLib (Clients.empty.set uidA [chalF, chalZero, chalF])
          (get [(str "_powroxyuid", cookieA), (str "_powroxy", candF)])).userChallenges =
        some (some challenge) ∧
      challenge ∈ (Clients.empty.set uidA [chalF, chalZero, chalF]).read
        (lookupSession goLib (Clients.empty.set uidA [chalF, chalZero, chalF])
          (get [(str "_powroxyuid", cookieA), (str "_powroxy", candF)])).parsedPowUid ∧
      challenge ∉ res.clients.read
        (lookupSession goLib (Clients.empty.set uidA [chalF, chalZero, chalF])
          (get [(str "_powroxyuid", cookieA), (str "_powroxy", candF)])).parsedPowUid ∧
      (res.clients.read
        (lookupSession goLib (Clients.empty.set uidA [chalF, chalZero, chalF])
          (get [(str "_powroxyuid", cookieA), (str "_powroxy", candF)])).parsedPowUid).count
        challenge = 0 :=
  ⟨by decide!, C6_matched_challenge_removed goLib target
    (Clients.empty.set uidA [chalF, chalZero, chalF])
    (get [(str "_powroxyuid", cookieA), (str "_powroxy", candF)]) uidB (draws []) (by decide!)⟩

/-- C7 (refuted as stated): no number bounds the lists of the map over all
sequences of requests from the empty map. After a first contact that creates the
session `uidA`, `M + 1` requests with that session cookie leave `M + 1`
challenges under `uidA`. -/
theorem C7_no_maximum :
    ¬ ∃ M : Nat, ∀ (arrivals : List Arrival) (clients : Clients),
      serve goLib target Clients.empty arrivals = some clients →
        ∀ k, (clients.read k).length ≤ M := by
  rintro ⟨M, hM⟩
  have h1 : (handler goLib target Clients.empty firstContact.r firstContact.uid
      firstContact.Intn).map (fun res => res.clients uidA) = some (some []) := by
    decide
  rcases hres : handler goLib target Clients.empty firstContact.r firstContact.uid
      firstContact.Intn with _ | res
  · rw [hres] at h1
    simp at h1
  · rw [hres] at h1
    simp only [Option.map_some', Option.some.injEq] at h1
    obtain ⟨clients1, l1, hs, hk, hlen⟩ := serve_comeBack (M + 1) res.clients [] h1
    have hall := hM (firstContact :: List.replicate (M + 1) comeBack) clients1
      (by rw [serve, hres]; exact hs) uidA
    simp only [Clients.read, hk, Option.getD_some, hlen, List.length_nil] at hall
    omega

/-- C7 (as amended): a request that carries the cookie of an existing session
and ends in CHALLENGE leaves under that session's key the list that was there
before, followed by the new challenge; the list is one longer and nothing is
evicted. -/
theorem C7_challenge_appended (L : Lib) (targetHost : GoString) (clients : Clients)
    (r : Request) (uid : UUID) (Intn : Nat → Nat) (v : GoString) (l : List Challenge)
    (hc : r.Cookie (str "_powroxyuid") = some v) (hp : (L.Parse v).2 = true)
    (hk : clients (L.Parse v).1 = some l)
    (hf : (handler L targetHost clients r uid Intn).map Result.outcome =
      some Outcome.CHALLENGE) :
    ∃ res, handler L targetHost clients r uid Intn = some res ∧
      res.challengePow = some (generate Intn) ∧
      res.clients (L.Parse v).1 = some (l ++ [generate Intn]) ∧
      (res.clients.read (L.Parse v).1).length = l.length + 1 := by
  refine ⟨_, handler_challenge_found L targetHost clients r uid Intn v l hc hp hk hf, rfl, ?_, ?_⟩
  · exact Clients.set_same _ _ _
  · simp [Clients.read, Clients.set_same]

set_option maxRecDepth 1000000 in
/-- C7 (as amended) at a session that holds three challenges already. -/
theorem C7_challenge_appended_witness :
    (get [(str "_powroxyuid", cookieA)]).Cookie (str "_powroxyuid") = some cookieA ∧
    (goLib.Parse cookieA).2 = true ∧
    (Clients.empty.set uidA [chalF, chalZero, chalF]) (goLib.Parse cookieA).1 =
      some [chalF, chalZero, chalF] ∧
    ∃ res, handler goLib target (Clients.empty.set uidA [chalF, chalZero, chalF])
        (get [(str "_powroxyuid", cookieA)]) uidB (draws [1, 2, 3, 4, 5, 6, 7, 8, 9]) =
        some res ∧
      res.challengePow = some (generate (draws [1, 2, 3, 4, 5, 6, 7, 8, 9])) ∧
      res.clients (goLib.Parse cookieA).1 =
        some ([chalF, chalZero, chalF] ++ [generate (draws [1, 2, 3, 4, 5, 6, 7, 8, 9])]) ∧
      (res.clients.read (goLib.Parse cookieA).1).length = [chalF, chalZero, chalF].length + 1 :=
  ⟨by decide, by decide!, by decide!,
    C7_challenge_appended goLib target (Clients.empty.set uidA [chalF, chalZero, chalF])
      (get [(str "_powroxyuid", cookieA)]) uidB (draws [1, 2, 3, 4, 5, 6, 7, 8, 9]) cookieA
      [chalF, chalZero, chalF] (by decide) (by decide!) (by decide!) (by decide!)⟩

/-- C8: the handler sets the session cookie exactly when the request's session
cookie is absent, does not parse, or parses to an id that is no key of the map;
the cookie then carries the id `uuid.New()` returned, and that id is a key of the
map after the request. When the cookie names a key of the map, no cookie is set
and the map has the same keys after the request as before. -/
theorem C8_session_bootstrap (L : Lib) (targetHost : GoString) (clients : Clients)
    (r : Request) (uid : UUID) (Intn : Nat → Nat) :
    ∃ res, handler L targetHost clients r uid Intn = some res ∧
      (res.setCookie ≠ none ↔
        (r.Cookie (str "_powroxyuid") = none ∨
          ∃ v, r.Cookie (str "_powroxyuid") = some v ∧
            ((L.Parse v).2 = false ∨ clients (L.Parse v).1 = none))) ∧
      (res.setCookie ≠ none →
        res.setCookie = some (L.String uid) ∧ (res.clients uid).isSome = true) ∧
      ((∃ v l, r.Cookie (str "_powroxyuid") = some v ∧ (L.Parse v).2 = true ∧
          clients (L.Parse v).1 = some l) →
        res.setCookie = none ∧ ∀ k, (res.clients k).isSome = (clients k).isSome) := by
  obtain ⟨res, stored, hh, hcookie, hclients⟩ := handler_shape L targetHost clients r uid Intn
  refine ⟨res, hh, ?_⟩
  rcases lookupSession_cases L clients r with ⟨v, l, hc, hp, hk, hs⟩ | ⟨hcond, _, hnew⟩
  · have hnone : res.setCookie = none := by
      rw [hcookie, hs]
      simp [sessionCookie, Session.isNew]
    have hkeys : ∀ k, (res.clients k).isSome = (clients k).isSome := by
      intro k
      rw [hclients, hs]
      simp only [createSession, Session.isNew, Bool.not_true, Bool.or_self, Bool.false_eq_true,
        if_false]
      by_cases hkk : k = (L.Parse v).1
      · rw [hkk, Clients.set_same, hk]
        rfl
      · rw [Clients.set_other _ _ _ _ hkk]
    refine ⟨⟨fun h => absurd hnone h, ?_⟩, fun h => absurd hnone h, fun _ => ⟨hnone, hkeys⟩⟩
    rintro (habs | ⟨w, hw, hbad⟩)
    · rw [hc] at habs
      simp at habs
    · rw [hc] at hw
      cases hw
      rcases hbad with hbad | hbad
      · rw [hp] at hbad
        simp at hbad
      · rw [hk] at hbad
        simp at hbad
  · have hset : res.setCookie = some (L.String uid) := by
      rw [hcookie]
      simp [sessionCookie, hnew]
    have hkey : (res.clients uid).isSome = true := by
      rw [hclients]
      simp only [createSession, hnew, if_true]
      by_cases hkk : uid = (lookupSession L clients r).parsedPowUid
      · rw [← hkk, Clients.set_same]
        rfl
      · rw [Clients.set_other _ _ _ _ hkk, Clients.set_same]
        rfl
    refine ⟨⟨fun _ => hcond, fun _ => by simp [hset]⟩, fun _ => ⟨hset, hkey⟩, ?_⟩
    rintro ⟨v, l, hc, hp, hk⟩
    rcases hcond with habs | ⟨w, hw, hbad⟩
    · rw [hc] at habs
      simp at habs
    · rw [hc] at hw
      cases hw
      rcases hbad with hbad | hbad
      · rw [hp] at hbad
        simp at hbad
      · rw [hk] at hbad
        simp at hbad

/-! ## The two responses -/

/-- C9: two requests that end in CHALLENGE with the same generated challenge get
the same body and the same Content-Type, whatever their cookies and whatever the
map holds: the body is the page of the generated challenge and the Content-Type
is `text/html`. -/
theorem C9_uniform_rejection (L L1 : Lib) (targetHost targetHost1 : GoString)
    (clients clients1 : Clients) (r r1 : Request) (uid uid1 : UUID) (Intn Intn1 : Nat → Nat)
    (h : (handler L targetHost clients r uid Intn).map Result.outcome =
      some Outcome.CHALLENGE)
    (h1 : (handler L1 targetHost1 clients1 r1 uid1 Intn1).map Result.outcome =
      some Outcome.CHALLENGE)
    (hsame : (handler L targetHost clients r uid Intn).bind Result.challengePow =
      (handler L1 targetHost1 clients1 r1 uid1 Intn1).bind Result.challengePow) :
    ∃ res res1 c, handler L targetHost clients r uid Intn = some res ∧
      handler L1 targetHost1 clients1 r1 uid1 Intn1 = some res1 ∧
      res.challengePow = some c ∧ res1.challengePow = some c ∧
      res.body = res1.body ∧ res.contentType = res1.contentType ∧
      res.body = page c ∧ res.contentType = some (str "text/html") := by
  have hh := handler_challenge L targetHost clients r uid Intn h
  have hh1 := handler_challenge L1 targetHost1 clients1 r1 uid1 Intn1 h1
  rw [hh, hh1] at hsame
  simp only [Option.some_bind, issue, Option.some.injEq] at hsame
  refine ⟨_, _, generate Intn, hh, hh1, rfl, ?_, ?_, rfl, rfl, rfl⟩
  · simp [issue, hsame]
  · simp [issue, hsame]

set_option maxRecDepth 1000000 in
/-- C9 at three requests of one session that holds `chalF`: without solution
cookie, with the too short solution `0000`, and with the solution
`deadbeefdeadbeef` that matches no challenge. -/
theorem C9_uniform_rejection_witness :
    (handler goLib target (Clients.empty.set uidA [chalF])
      (get [(str "_powroxyuid", cookieA)]) uidB (draws [7, 7, 7])).map Result.outcome =
      some Outcome.CHALLENGE ∧
    (handler goLib target (Clients.empty.set uidA [chalF])
      (get [(str "_powroxyuid", cookieA), (str "_powroxy", str "0000")]) uidB
      (draws [7, 7, 7])).map Result.outcome = some Outcome.CHALLENGE ∧
    (handler goLib target (Clients.empty.set uidA [chalF])
      (get [(str "_powroxyuid", cookieA), (str "_powroxy", str "deadbeefdeadbeef")]) uidB
      (draws [7, 7, 7])).map Result.outcome = some Outcome.CHALLENGE ∧
    (∃ res res1 c, handler goLib target (Clients.empty.set uidA [chalF])
        (get [(str "_powroxyuid", cookieA)]) uidB (draws [7, 7, 7]) = some res ∧
      handler goLib target (Clients.empty.set uidA [chalF])
        (get [(str "_powroxyuid", cookieA), (str "_powroxy", str "0000")]) uidB
        (draws [7, 7, 7]) = some res1 ∧
      res.challengePow = some c ∧ res1.challengePow = some c ∧
      res.body = res1.body ∧ res.contentType = res1.contentType ∧
      res.body = page c ∧ res.contentType = some (str "text/html")) ∧
    (∃ res res1 c, handler goLib target (Clients.empty.set uidA [chalF])
        (get [(str "_powroxyuid", cookieA)]) uidB (draws [7, 7, 7]) = some res ∧
      handler goLib target (Clients.empty.set uidA [chalF])
        (get [(str "_powroxyuid", cookieA), (str "_powroxy", str "deadbeefdeadbeef")]) uidB
        (draws [7, 7, 7]) = some res1 ∧
      res.challengePow = some c ∧ res1.challengePow = some c ∧
      res.body = res1.body ∧ res.contentType = res1.contentType ∧
      res.body = page c ∧ res.contentType = some (str "text/html")) :=
  ⟨by decide!, by decide!, by decide!,
    C9_uniform_rejection goLib goLib target target (Clients.empty.set uidA [chalF])
      (Clients.empty.set uidA [chalF]) (get [(str "_powroxyuid", cookieA)])
      (get [(str "_powroxyuid", cookieA), (str "_powroxy", str "0000")]) uidB uidB
      (draws [7, 7, 7]) (draws [7, 7, 7]) (by decide!) (by decide!) (by decide!),
    C9_uniform_rejection goLib goLib target target (Clients.empty.set uidA [chalF])
      (Clients.empty.set uidA [chalF]) (get [(str "_powroxyuid", cookieA)])
      (get [(str "_powroxyuid", cookieA), (str "_powroxy", str "deadbeefdeadbeef")]) uidB uidB
      (draws [7, 7, 7]) (draws [7, 7, 7]) (by decide!) (by decide!) (by decide!)⟩

/-- C10: when a request ends in FORWARD, the request handed to the proxy is the
incoming request with `Host` set to the host of the target and every other field
as it came, no challenge is generated, and every list of the map after the
request is a sublist of the list under the same key before it, the keys being
the same. -/
theorem C10_forward_frame (L : Lib) (targetHost : GoString) (clients : Clients)
    (r : Request) (uid : UUID) (Intn : Nat → Nat)
    (hf : (handler L targetHost clients r uid Intn).map Result.outcome = some Outcome.FORWARD) :
    ∃ res p, handler L targetHost clients r uid Intn = some res ∧
      res.proxied = some p ∧ p = { r with Host := targetHost } ∧
      p.Host = targetHost ∧ p.Method = r.Method ∧ p.URL = r.URL ∧ p.Header = r.Header ∧
      p.Body = r.Body ∧ p.Cookies = r.Cookies ∧
      res.challengePow = none ∧
      ∀ k, (res.clients k).isSome = (clients k).isSome ∧
        (res.clients.read k).Sublist (clients.read k) := by
  obtain ⟨c, v, l, _, _, hk, _, _, _, hh⟩ := handler_forward L targetHost clients r uid Intn hf
  refine ⟨_, _, hh, rfl, rfl, rfl, rfl, rfl, rfl, rfl, rfl, rfl, ?_⟩
  intro k
  by_cases hkk : k = (L.Parse v).1
  · subst hkk
    simp only [Clients.read, Clients.set_same, hk, Option.isSome_some, Option.getD_some,
      true_and]
    exact List.filter_sublist l
  · simp only [Clients.read, Clients.set_other _ _ _ _ hkk, true_and]
    exact List.Sublist.refl _

set_option maxRecDepth 1000000 in
/-- C10 at the request that solves `chalF` in the session `uidA`. -/
theorem C10_forward_frame_witness :
    (handler goLib target (Clients.empty.set uidA [chalZero, chalF])
      (get [(str "_powroxyuid", cookieA), (str "_powroxy", candF)]) uidB (draws [])).map
      Result.outcome = some Outcome.FORWARD ∧
    ∃ res p, handler goLib target (Clients.empty.set uidA [chalZero, chalF])
        (get [(str "_powroxyuid", cookieA), (str "_powroxy", candF)]) uidB (draws []) =
        some res ∧
      res.proxied = some p ∧
      p = { get [(str "_powroxyuid", cookieA), (str "_powroxy", candF)] with Host := target } ∧
      p.Host = target ∧
      p.Method = (get [(str "_powroxyuid", cookieA), (str "_powroxy", candF)]).Method ∧
      p.URL = (get [(str "_powroxyuid", cookieA), (str "_powroxy", candF)]).URL ∧
      p.Header = (get [(str "_powroxyuid", cookieA), (str "_powroxy", candF)]).Header ∧
      p.Body = (get [(str "_powroxyuid", cookieA), (str "_powroxy", candF)]).Body ∧
      p.Cookies = (get [(str "_powroxyuid", cookieA), (str "_powroxy", candF)]).Cookies ∧
      res.challengePow = none ∧
      ∀ k, (res.clients k).isSome = ((Clients.empty.set uidA [chalZero, chalF]) k).isSome ∧
        (res.clients.read k).Sublist ((Clients.empty.set uidA [chalZero, chalF]).read k) :=
  ⟨by decide!, C10_forward_frame goLib target (Clients.empty.set uidA [chalZero, chalF])
    (get [(str "_powroxyuid", cookieA), (str "_powroxy", candF)]) uidB (draws []) (by decide!)⟩

/-! ## Index safety -/

/-- The loop reads its two arguments below index `i + n` only. -/
theorem prefixLoop_take (a b : List Byte) (m n i : Nat) (hm : i + n ≤ m) :
    prefixLoop a b n i = prefixLoop (a.take m) (b.take m) n i := by
  induction n generalizing i with
  | zero => rfl
  | succ n ih =>
    have hi : i < m := by omega
    rw [prefixLoop, prefixLoop, List.getElem?_take_of_lt hi, List.getElem?_take_of_lt hi,
      ih (i + 1) (by omega)]

/-- C16: for every candidate and every challenge the match check returns a
value, that is, no index is out of range. The hex string of the required
prefix has `2 * prefixLength` characters. Behind the guard of line 63 the prefix
loop returns a value and reads the candidate and the hex string below index
`prefixLength` only; the hash loop returns a value and reads the digest and the
challenge below index `powLength` only. The handler as a whole returns a
result. -/
theorem C16_no_index_out_of_range (L : Lib) (parsedPowSolve : GoString) (challenge : Challenge) :
    (∃ b, matchCheck L parsedPowSolve challenge = some b) ∧
    (fmtSbx (challenge.val.drop powLength)).length = 2 * prefixLength ∧
    prefixLength ≤ (fmtSbx (challenge.val.drop powLength)).length ∧
    (prefixLength ≤ parsedPowSolve.length →
      (∃ b, prefixLoop parsedPowSolve (fmtSbx (challenge.val.drop powLength))
        prefixLength 0 = some b) ∧
      prefixLoop parsedPowSolve (fmtSbx (challenge.val.drop powLength)) prefixLength 0 =
        prefixLoop (parsedPowSolve.take prefixLength)
          ((fmtSbx (challenge.val.drop powLength)).take prefixLength) prefixLength 0) ∧
    (∃ b, hashLoop (L.Sum256 parsedPowSolve).val challenge.val powLength 0 = some b) ∧
    hashLoop (L.Sum256 parsedPowSolve).val challenge.val powLength 0 =
      hashLoop ((L.Sum256 parsedPowSolve).val.take powLength) (challenge.val.take powLength)
        powLength 0 ∧
    ∀ (targetHost : GoString) (clients : Clients) (r : Request) (uid : UUID) (Intn : Nat → Nat),
      ∃ res, handler L targetHost clients r uid Intn = some res := by
  have hhex : (fmtSbx (challenge.val.drop powLength)).length = 2 * prefixLength := by
    simp [fmtSbx_length, challenge.property, powLength, prefixLength]
  have hhash : hashLoop (L.Sum256 parsedPowSolve).val challenge.val powLength 0 =
      some (decide ((List.drop 0 (L.Sum256 parsedPowSolve).val).take powLength =
        (List.drop 0 challenge.val).take powLength)) := by
    rw [hashLoop_eq_prefixLoop]
    exact prefixLoop_eq _ _ _ _ (by simp [(L.Sum256 parsedPowSolve).property, powLength])
      (by simp [challenge.property, powLength])
  refine ⟨⟨_, matchCheck_eq L parsedPowSolve challenge⟩, hhex, by omega, ?_, ⟨_, hhash⟩, ?_, ?_⟩
  · intro hlen
    exact ⟨⟨_, prefixLoop_eq _ _ _ _ (by simpa using hlen) (by omega)⟩,
      prefixLoop_take _ _ prefixLength prefixLength 0 (by omega)⟩
  · rw [hashLoop_eq_prefixLoop, hashLoop_eq_prefixLoop]
    exact prefixLoop_take _ _ powLength powLength 0 (by omega)
  · intro targetHost clients r uid Intn
    exact ⟨_, handler_eq L targetHost clients r uid Intn⟩

set_option maxRecDepth 1000000 in
/-- Without the guard of line 63 the prefix loop would index a short candidate
out of range. -/
theorem prefixLoop_out_of_range :
    prefixLoop (str "0000") (fmtSbx (requiredPrefix chalZero)) prefixLength 0 = none := by
  decide!

/-! ## What a request changes in the map -/

theorem filter_ne_length (c : Challenge) (l : List Challenge) :
    (l.filter (fun x => x != c)).length + l.count c = l.length := by
  induction l with
  | nil => rfl
  | cons a t ih =>
    by_cases h : a = c
    · subst h
      simp only [List.filter_cons, bne_self_eq_false, Bool.false_eq_true, if_false,
        List.count_cons_self, List.length_cons]
      omega
    · have hne : (a == c) = false := by simpa using h
      simp only [List.filter_cons, bne, hne, Bool.not_false, if_true, List.length_cons,
        List.count_cons, Bool.false_eq_true, if_false, Nat.add_zero] at ih ⊢
      omega

theorem filter_ne_of_not_mem (c : Challenge) (l : List Challenge) (h : c ∉ l) :
    l.filter (fun x => x != c) = l := by
  rw [List.filter_eq_self]
  intro a ha
  have : a ≠ c := fun hac => h (hac ▸ ha)
  simpa using this

theorem filter_ne_eq_erase (c : Challenge) (l : List Challenge) (h : l.count c = 1) :
    l.filter (fun x => x != c) = l.erase c := by
  induction l with
  | nil => simp at h
  | cons a t ih =>
    by_cases hac : a = c
    · subst hac
      rw [List.count_cons_self] at h
      have hnot : a ∉ t := List.count_eq_zero.mp (by omega)
      simp [List.filter_cons, filter_ne_of_not_mem a t hnot]
    · have hne : (a == c) = false := by simpa using hac
      rw [List.count_cons, hne] at h
      simp only [Bool.false_eq_true, if_false, Nat.add_zero] at h
      rw [List.filter_cons, List.erase_cons, ih h]
      simp [bne, hne]

/-- Behind the guard, the match check and the closed form of the loops agree. -/
theorem matchCheck_agrees (L : Lib) (x : GoString) (hlen : prefixLength ≤ x.length) :
    (fun c => decide (matchCheck L x c = some true)) = agrees x (L.Sum256 x) := by
  funext c
  rw [matchCheck_eq]
  simp [hlen]

set_option maxRecDepth 1000000 in
/-- C13 (refuted as stated): with `chalF`, `chalOther`, `chalF` stored for the
session `uidA`, the request that offers `candF` ends in FORWARD; the first entry
that passes the match check is `chalF`, and removing that one entry would leave
`chalOther`, `chalF`, but the handler leaves `chalOther` alone: two entries are
removed. -/
theorem C13_two_entries_removed :
    (handler goLib target (Clients.empty.set uidA [chalF, chalOther, chalF]) solveF uidB
      (draws [])).map Result.outcome = some Outcome.FORWARD ∧
    [chalF, chalOther, chalF].find? (fun c => decide (matchCheck goLib candF c = some true)) =
      some chalF ∧
    [chalF, chalOther, chalF].erase chalF = [chalOther, chalF] ∧
    (handler goLib target (Clients.empty.set uidA [chalF, chalOther, chalF]) solveF uidB
      (draws [])).map (fun res => res.clients uidA) = some (some [chalOther]) ∧
    (handler goLib target (Clients.empty.set uidA [chalF, chalOther, chalF]) solveF uidB
      (draws [])).map (fun res => res.clients uidA) ≠
      some (some ([chalF, chalOther, chalF].erase chalF)) := by
  decide!

/-- C13 (as amended): when a request ends in FORWARD, the list stored for the
session after the request is the list before it without the entries equal to
the first entry that passes the match check; the other entries remain in their
order and none is added. The list is shorter by the number of occurrences of
that entry, and when it occurs once, exactly that one entry is removed. -/
theorem C13_copies_of_first_match_removed (L : Lib) (targetHost : GoString)
    (clients : Clients) (r : Request) (uid : UUID) (Intn : Nat → Nat)
    (hf : (handler L targetHost clients r uid Intn).map Result.outcome = some Outcome.FORWARD) :
    ∃ res challenge, handler L targetHost clients r uid Intn = some res ∧
      (clients.read (lookupSession L clients r).parsedPowUid).find?
        (fun c => decide (matchCheck L ((r.Cookie (str "_powroxy")).getD []) c = some true)) =
        some challenge ∧
      res.clients.read (lookupSession L clients r).parsedPowUid =
        (clients.read (lookupSession L clients r).parsedPowUid).filter
          (fun c => c != challenge) ∧
      (res.clients.read (lookupSession L clients r).parsedPowUid).Sublist
        (clients.read (lookupSession L clients r).parsedPowUid) ∧
      (res.clients.read (lookupSession L clients r).parsedPowUid).length +
        (clients.read (lookupSession L clients r).parsedPowUid).count challenge =
        (clients.read (lookupSession L clients r).parsedPowUid).length ∧
      ((clients.read (lookupSession L clients r).parsedPowUid).count challenge = 1 →
        res.clients.read (lookupSession L clients r).parsedPowUid =
          (clients.read (lookupSession L clients r).parsedPowUid).erase challenge) := by
  obtain ⟨c, v, l, _, _, hk, hs, hlen, hfind, hh⟩ :=
    handler_forward L targetHost clients r uid Intn hf
  have hbefore : clients.read (L.Parse v).1 = l := by simp [Clients.read, hk]
  have hafter : (clients.set (L.Parse v).1 (l.filter (fun x => x != c))).read (L.Parse v).1 =
      l.filter (fun x => x != c) := by
    simp [Clients.read, Clients.set_same]
  refine ⟨_, c, hh, ?_, ?_, ?_, ?_, ?_⟩
  · rw [hs, matchCheck_agrees L _ hlen]
    simp only [hbefore]
    exact hfind
  · rw [hs]
    simp only [hbefore, hafter]
  · rw [hs]
    simp only [hbefore, hafter]
    exact List.filter_sublist l
  · rw [hs]
    simp only [hbefore, hafter]
    exact filter_ne_length c l
  · rw [hs]
    simp only [hbefore, hafter]
    exact filter_ne_eq_erase c l

set_option maxRecDepth 1000000 in
/-- C13 (as amended) at the map of the counterexample. -/
theorem C13_copies_of_first_match_removed_witness :
    (handler goLib target (Clients.empty.set uidA [chalF, chalOther, chalF]) solveF uidB
      (draws [])).map Result.outcome = some Outcome.FORWARD ∧
    ∃ res challenge, handler goLib target (Clients.empty.set uidA [chalF, chalOther, chalF])
        solveF uidB (draws []) = some res ∧
      ((Clients.empty.set uidA [chalF, chalOther, chalF]).read
        (lookupSession goLib (Clients.empty.set uidA [chalF, chalOther, chalF])
          solveF).parsedPowUid).find?
        (fun c => decide (matchCheck goLib ((solveF.Cookie (str "_powroxy")).getD []) c =
          some true)) = some challenge ∧
      res.clients.read (lookupSession goLib (Clients.empty.set uidA [chalF, chalOther, chalF])
          solveF).parsedPowUid =
        ((Clients.empty.set uidA [chalF, chalOther, chalF]).read
          (lookupSession goLib (Clients.empty.set uidA [chalF, chalOther, chalF])
            solveF).parsedPowUid).filter (fun c => c != challenge) ∧
      (res.clients.read (lookupSession goLib (Clients.empty.set uidA [chalF, chalOther, chalF])
          solveF).parsedPowUid).Sublist
        ((Clients.empty.set uidA [chalF, chalOther, chalF]).read
          (lookupSession goLib (Clients.empty.set uidA [chalF, chalOther, chalF])
            solveF).parsedPowUid) ∧
      (res.clients.read (lookupSession goLib (Clients.empty.set uidA [chalF, chalOther, chalF])
          solveF).parsedPowUid).length +
        ((Clients.empty.set uidA [chalF, chalOther, chalF]).read
          (lookupSession goLib (Clients.empty.set uidA [chalF, chalOther, chalF])
            solveF).parsedPowUid).count challenge =
        ((Clients.empty.set uidA [chalF, chalOther, chalF]).read
          (lookupSession goLib (Clients.empty.set uidA [chalF, chalOther, chalF])
            solveF).parsedPowUid).length ∧
      (((Clients.empty.set uidA [chalF, chalOther, chalF]).read
          (lookupSession goLib (Clients.empty.set uidA [chalF, chalOther, chalF])
            solveF).parsedPowUid).count challenge = 1 →
        res.clients.read (lookupSession goLib (Clients.empty.set uidA [chalF, chalOther, chalF])
            solveF).parsedPowUid =
          ((Clients.empty.set uidA [chalF, chalOther, chalF]).read
            (lookupSession goLib (Clients.empty.set uidA [chalF, chalOther, chalF])
              solveF).parsedPowUid).erase challenge) :=
  ⟨by decide!, C13_copies_of_first_match_removed goLib target
    (Clients.empty.set uidA [chalF, chalOther, chalF]) solveF uidB (draws []) (by decide!)⟩

/-- The entries of the map that one request can change: the one under the key
`parsedPowUid` and, when a session is created, the one under the new id. -/
theorem handler_frame (L : Lib) (targetHost : GoString) (clients : Clients) (r : Request)
    (uid : UUID) (Intn : Nat → Nat) :
    ∃ res, handler L targetHost clients r uid Intn = some res ∧
      ∀ k, k ≠ (lookupSession L clients r).parsedPowUid →
        ((lookupSession L clients r).isNew = true → k ≠ uid) → res.clients k = clients k := by
  obtain ⟨res, stored, hh, _, hclients⟩ := handler_shape L targetHost clients r uid Intn
  refine ⟨res, hh, fun k hk hnew => ?_⟩
  rw [hclients, Clients.set_other _ _ _ _ hk]
  unfold createSession
  by_cases hn : (lookupSession L clients r).isNew = true
  · rw [if_pos hn]
    exact Clients.set_other _ _ _ _ (hnew hn)
  · rw [if_neg hn]

set_option maxRecDepth 1000000 in
/-- C15 (the code differs): the map holds the session `uidB` only; a request
without cookies, for which `uuid.New()` returns `uidA`, changes two entries of
the map: it adds the key `uidA` with the empty list and the key of the zero id
with the new challenge. The entry of `uidB` is unchanged. -/
theorem C15_two_entries_written :
    uidA ≠ UUID.zero ∧
    (Clients.empty.set uidB [chalF]) uidA = none ∧
    (Clients.empty.set uidB [chalF]) UUID.zero = none ∧
    (handler goLib target (Clients.empty.set uidB [chalF]) (get []) uidA (draws [])).map
      (fun res => res.clients uidA) = some (some []) ∧
    (handler goLib target (Clients.empty.set uidB [chalF]) (get []) uidA (draws [])).map
      (fun res => res.clients UUID.zero) = some (some [Challenge.zero]) ∧
    (handler goLib target (Clients.empty.set uidB [chalF]) (get []) uidA (draws [])).map
      (fun res => res.clients uidB) = some (some [chalF]) := by
  decide!

/-! ## The page and the verifier -/

/-- A key of the map is a key of the map after one more request. -/
theorem handler_keeps_keys (L : Lib) (targetHost : GoString) (clients : Clients) (r : Request)
    (uid : UUID) (Intn : Nat → Nat) (k : UUID) (hk : (clients k).isSome = true) :
    ∃ res, handler L targetHost clients r uid Intn = some res ∧ (res.clients k).isSome = true := by
  obtain ⟨res, stored, hh, _, hclients⟩ := handler_shape L targetHost clients r uid Intn
  refine ⟨res, hh, ?_⟩
  have hcreate : ((createSession clients (lookupSession L clients r) uid) k).isSome = true := by
    unfold createSession
    by_cases hn : (lookupSession L clients r).isNew = true
    · rw [if_pos hn]
      by_cases hku : k = uid
      · rw [hku, Clients.set_same]
        rfl
      · rw [Clients.set_other _ _ _ _ hku]
        exact hk
    · rw [if_neg hn]
      exact hk
  rw [hclients]
  by_cases hkp : k = (lookupSession L clients r).parsedPowUid
  · rw [hkp, Clients.set_same]
    rfl
  · rw [Clients.set_other _ _ _ _ hkp]
    exact hcreate

/-- A key of the map is a key of the map after any sequence of requests. -/
theorem serve_keeps_keys (L : Lib) (targetHost : GoString) (arrivals : List Arrival)
    (clients : Clients) (k : UUID) (hk : (clients k).isSome = true) :
    ∃ clients1, serve L targetHost clients arrivals = some clients1 ∧
      (clients1 k).isSome = true := by
  induction arrivals generalizing clients with
  | nil => exact ⟨clients, rfl, hk⟩
  | cons a rest ih =>
    obtain ⟨res, hh, hk1⟩ := handler_keeps_keys L targetHost clients a.r a.uid a.Intn k hk
    obtain ⟨clients1, hs, hk2⟩ := ih res.clients hk1
    exact ⟨clients1, by rw [serve, hh]; exact hs, hk2⟩

/-- A request with the cookie of a key of the map sets no cookie. -/
theorem handler_found_no_cookie (L : Lib) (targetHost : GoString) (clients : Clients)
    (r : Request) (uid : UUID) (Intn : Nat → Nat) (v : GoString)
    (hc : r.Cookie (str "_powroxyuid") = some v) (hp : (L.Parse v).2 = true)
    (hk : (clients (L.Parse v).1).isSome = true) :
    ∃ res, handler L targetHost clients r uid Intn = some res ∧ res.setCookie = none := by
  obtain ⟨res, stored, hh, hcookie, _⟩ := handler_shape L targetHost clients r uid Intn
  obtain ⟨l, hl⟩ := Option.isSome_iff_exists.mp hk
  refine ⟨res, hh, ?_⟩
  rw [hcookie, lookupSession_found L clients r v l hc hp hl]
  simp [sessionCookie, Session.isNew]

set_option maxRecDepth 1000000 in
/-- C11 (refuted as stated): no idle time makes a session absent. Whatever the
TTL, after a first contact at time `0` that creates the session `uidA`, a request
with the cookie of `uidA` at a time later than the TTL is handled as that
session: no cookie for a new session is set. -/
theorem C11_no_idle_expiry :
    ¬ ∃ ttl : Nat, ∀ (history : List Timed) (t : Nat) (clients : Clients),
      serveTimed goLib target Clients.empty history = some clients →
      (∀ a ∈ history, a.time + ttl < t) →
      ∀ (r : Request) (uid : UUID) (Intn : Nat → Nat),
        (handler goLib target clients r uid Intn).map Result.setCookie =
          some (some (goLib.String uid)) := by
  rintro ⟨ttl, h⟩
  have hrun : (serveTimed goLib target Clients.empty [⟨0, firstContact⟩]).bind
      (fun clients => (handler goLib target clients comeBack.r comeBack.uid comeBack.Intn).map
        Result.setCookie) = some none := by
    decide!
  rcases hs : serveTimed goLib target Clients.empty [⟨0, firstContact⟩] with _ | clients
  · rw [hs] at hrun
    simp at hrun
  · rw [hs] at hrun
    have hnew := h [⟨0, firstContact⟩] (ttl + 1) clients hs
      (by intro a ha; simp only [List.mem_singleton] at ha; subst ha; simp)
      comeBack.r comeBack.uid comeBack.Intn
    simp only [Option.some_bind] at hrun
    rw [hrun] at hnew
    simp at hnew

/-- C11 (as amended): sessions do not expire. A key of the map is still a key
after any further requests, at whatever times they arrive, and a later request
with the cookie of that key is handled as that session: no cookie is set and the
key stays. -/
theorem C11_sessions_never_expire (L : Lib) (targetHost : GoString) (clients : Clients)
    (k : UUID) (history : List Timed) (r : Request) (uid : UUID) (Intn : Nat → Nat)
    (v : GoString) (hk : (clients k).isSome = true)
    (hc : r.Cookie (str "_powroxyuid") = some v) (hp : L.Parse v = (k, true)) :
    ∃ clients1 res, serveTimed L targetHost clients history = some clients1 ∧
      (clients1 k).isSome = true ∧
      (lookupSession L clients1 r).found = true ∧
      handler L targetHost clients1 r uid Intn = some res ∧
      res.setCookie = none ∧ (res.clients k).isSome = true := by
  obtain ⟨clients1, hs, hk1⟩ :=
    serve_keeps_keys L targetHost (history.map Timed.arrival) clients k hk
  have hp2 : (L.Parse v).2 = true := by rw [hp]
  have hk2 : (clients1 (L.Parse v).1).isSome = true := by rw [hp]; exact hk1
  obtain ⟨res, hh, hcookie⟩ := handler_found_no_cookie L targetHost clients1 r uid Intn v hc hp2 hk2
  obtain ⟨res1, hh1, hk3⟩ := handler_keeps_keys L targetHost clients1 r uid Intn k hk1
  obtain ⟨l, hl⟩ := Option.isSome_iff_exists.mp hk2
  refine ⟨clients1, res, hs, hk1, ?_, hh, hcookie, ?_⟩
  · rw [lookupSession_found L clients1 r v l hc hp2 hl]
  · rw [hh] at hh1
    cases hh1
    exact hk3

set_option maxRecDepth 1000000 in
/-- C11 (as amended) at a session that is asked again after a day and after a
year. -/
theorem C11_sessions_never_expire_witness :
    ((Clients.empty.set uidA [chalF]) uidA).isSome = true ∧
    solveF.Cookie (str "_powroxyuid") = some cookieA ∧
    goLib.Parse cookieA = (uidA, true) ∧
    ∃ clients1 res, serveTimed goLib target (Clients.empty.set uidA [chalF])
        [⟨86400, askZero⟩, ⟨31536000, comeBack⟩] = some clients1 ∧
      (clients1 uidA).isSome = true ∧
      (lookupSession goLib clients1 solveF).found = true ∧
      handler goLib target clients1 solveF uidB (draws []) = some res ∧
      res.setCookie = none ∧ (res.clients uidA).isSome = true :=
  ⟨by decide, by decide, by decide!,
    C11_sessions_never_expire goLib target (Clients.empty.set uidA [chalF]) uidA
      [⟨86400, askZero⟩, ⟨31536000, comeBack⟩] solveF uidB (draws []) cookieA (by decide)
      (by decide) (by decide!)⟩

end Powroxy
